import Mathlib

/-!
Shallow embedding of the offline-first note sync core of the Notes app.

Sources embedded here:
- the Dexie local store `offlineService` (`src/unnamed/part_000`, lines 541-953):
  notes / labels / note_labels tables, the sync queue, AI response cache,
  preferences, maintenance `cleanup`, and `exportData`;
- the Supabase remote adapters `notesService` / `labelsService`
  (`src/unnamed/part_000`, lines 31-279);
- the connectivity-routing facade in `NotesProvider`
  (`src/src/contexts/AuthContext.jsx`);
- the sync orchestrator `syncWithServer` / `processSyncQueueItem` /
  `syncNote` / `syncLabel` / `syncNoteLabel` in `OfflineProvider`
  (`src/src/contexts/AIContext.jsx`, lines 432-650).

Modelling conventions:
- ISO-8601 timestamp strings are modelled as `Nat` milliseconds; string
  comparison of ISO timestamps is order-isomorphic to numeric comparison.
- Each operation takes the current clock value `now : Nat` explicitly,
  standing for the `new Date()` calls inside that operation.
- Records are Lean structures; the JS `metadata` bag is kept opaque as a
  `String`.  Fields a stored object may lack (`sync_status`,
  `last_modified`, `deleted_at`) are `Option`s, `none` standing for a
  missing/undefined/null property.
- Dexie auto-increment primary keys (`++id`) are modelled by a per-table
  `next` counter carried in the state, starting at 1.
- Dexie hook semantics: a `creating` hook may mutate the object about to be
  stored, and these mutations are persisted; an `updating` hook is passed a
  freshly computed diff object and only the object it *returns* is merged
  into the update (Dexie `Table.hook` contract).  The `updating` hooks in
  `OfflineDatabase` mutate the passed diff and return nothing, so they have
  no effect on the stored record; the `creating` hooks mutate `obj` and do
  take effect.  The local-store definitions below bake this in: creation
  stamps `sync_status = pending` / `last_modified = now`, plain updates
  apply exactly the given modifications.
- Remote (Supabase) calls can fail at the network; the orchestrator and
  facade take a success oracle for them.  A failed call leaves the remote
  state unchanged and the JS exception propagates to the caller.
- The offline mutating methods of `offlineService.notes` and
  `offlineService.labels` all end with `await this.addToSyncQueue(...)`.
  `addToSyncQueue` is defined on `offlineService` itself, not on the
  nested `notes`/`labels` objects, and the methods are invoked as
  `offlineService.notes.create(...)` etc., so `this` is the nested object
  and the call throws a TypeError after the Dexie write: no sync-queue
  entry is ever appended by any of these paths, and the method rejects.
  The definitions return the store at the throw point; the facade
  surfaces the rejection as a `none`/`false` result.  Likewise
  `labels.removeFromNote` queries a compound index the schema never
  declares (rejecting before any effect), and `cleanup` rejects with a
  DataError on its boolean-key query before performing any deletion.
-/

namespace NotesApp

/-- The per-record sync flag stored by the Dexie hooks. -/
inductive SyncStatus where
  | pending
  | synced
deriving Repr, DecidableEq

/-- The three tables the sync queue can reference (the `table_name` strings
`notes`, `labels`, `note_labels` produced by the enqueue sites). -/
inductive TableName where
  | notes
  | labels
  | note_labels
deriving Repr, DecidableEq

/-- Sync queue operations (`create`, `update`, `delete` strings). -/
inductive OpKind where
  | create
  | update
  | delete
deriving Repr, DecidableEq

/-- A note record.  Local records carry `sync_status`/`last_modified`
(stamped by the Dexie `creating` hook); remote rows have them `none`. -/
structure Note where
  id : Nat
  user_id : String
  title : String
  content : String
  type : String
  color : String
  pinned : Bool
  archived : Bool
  deleted : Bool
  created_at : Nat
  updated_at : Nat
  deleted_at : Option Nat := none
  metadata : String := ""
  sync_status : Option SyncStatus := none
  last_modified : Option Nat := none
deriving Repr, DecidableEq

/-- A label record. -/
structure Label where
  id : Nat
  user_id : String
  name : String
  created_at : Nat
  sync_status : Option SyncStatus := none
deriving Repr, DecidableEq

/-- A note-label association row.  The `note_labels` schema declares a
`sync_status` index but `addToNote` never sets the property, and no Dexie
hook is registered on this table, so it stays `none`. -/
structure NoteLabel where
  id : Nat
  note_id : Nat
  label_id : Nat
  sync_status : Option SyncStatus := none
deriving Repr, DecidableEq

/-- A partial JS update object for a note (`modify(updates)` argument).
`none` means the property is absent from the update object; for
`deleted_at`, `some none` is an explicit `null`. -/
structure NotePatch where
  title : Option String := none
  content : Option String := none
  type : Option String := none
  color : Option String := none
  pinned : Option Bool := none
  archived : Option Bool := none
  deleted : Option Bool := none
  deleted_at : Option (Option Nat) := none
  updated_at : Option Nat := none
  metadata : Option String := none
deriving Repr, DecidableEq

/-- Merge a partial update object over a note record, field by field. -/
def applyPatch (n : Note) (p : NotePatch) : Note :=
  { n with
    title := p.title.getD n.title
    content := p.content.getD n.content
    type := p.type.getD n.type
    color := p.color.getD n.color
    pinned := p.pinned.getD n.pinned
    archived := p.archived.getD n.archived
    deleted := p.deleted.getD n.deleted
    deleted_at := p.deleted_at.getD n.deleted_at
    updated_at := p.updated_at.getD n.updated_at
    metadata := p.metadata.getD n.metadata }

/-- The `noteData` argument of `createNote`: optional fields defaulted with
`||` in the source. -/
structure NoteInput where
  title : Option String := none
  content : Option String := none
  type : Option String := none
  color : Option String := none
  pinned : Option Bool := none
  metadata : Option String := none
deriving Repr, DecidableEq

/-- The `data` field of a sync queue entry: the JS payload objects produced
by the enqueue sites. -/
inductive SyncPayload where
  /-- notes create: the full note object that was written locally. -/
  | pNote (n : Note)
  /-- notes update / soft delete / restore: the update object. -/
  | pPatch (p : NotePatch)
  /-- notes permanent delete: the object with `permanent: true`. -/
  | pPerm
  /-- labels create: the label object that was written locally. -/
  | pLabel (l : Label)
  /-- labels update: the object holding the new `name`. -/
  | pName (name : String)
  /-- note_labels create: the association object. -/
  | pAssoc (note_id label_id : Nat)
  /-- the empty object used by the delete enqueue sites. -/
  | pEmpty
deriving Repr, DecidableEq

/-- A row of the `sync_queue` table. -/
structure SyncQueueEntry where
  id : Nat
  table_name : TableName
  record_id : Nat
  operation : OpKind
  data : SyncPayload
  created_at : Nat
  retries : Nat
deriving Repr, DecidableEq

/-- A `user_preferences` row. -/
structure Preference where
  id : Nat
  user_id : String
  key : String
  value : String
deriving Repr, DecidableEq

/-- A `cached_ai_responses` row. -/
structure CachedResponse where
  id : Nat
  query_hash : String
  response : String
  created_at : Nat
  expires_at : Nat
deriving Repr, DecidableEq

/-- The Dexie `OfflineDatabase` contents, one list per table (in primary
key insertion order) plus the per-table auto-increment counters. -/
structure LocalState where
  notes : List Note := []
  labels : List Label := []
  note_labels : List NoteLabel := []
  sync_queue : List SyncQueueEntry := []
  user_preferences : List Preference := []
  cached_ai_responses : List CachedResponse := []
  notesNext : Nat := 1
  labelsNext : Nat := 1
  nlNext : Nat := 1
  queueNext : Nat := 1
  cacheNext : Nat := 1
deriving Repr, DecidableEq

/-- `config.app.trashRetentionDays` from `src/src/config/index.js`. -/
def trashRetentionDays : Nat := 7

/-- Milliseconds in a day. -/
def dayMs : Nat := 24 * 60 * 60 * 1000

namespace offlineService

/-- `offlineService.addToSyncQueue`: append an entry with `retries = 0`.
No reachable call site invokes it successfully: every enqueue site
addresses it through `this` from a nested object where it is
undefined. -/
def addToSyncQueue (table_name : TableName) (record_id : Nat)
    (operation : OpKind) (data : SyncPayload) (now : Nat)
    (st : LocalState) : LocalState :=
  { st with
    sync_queue := st.sync_queue ++
      [{ id := st.queueNext, table_name := table_name,
         record_id := record_id, operation := operation, data := data,
         created_at := now, retries := 0 }]
    queueNext := st.queueNext + 1 }

namespace notes

/-- `offlineService.notes.create`: build the note object and store it
(the `creating` hook stamps `sync_status = pending`,
`last_modified = now`).  The next statement, `this.addToSyncQueue(...)`,
then throws a TypeError: `addToSyncQueue` is a property of
`offlineService` itself and is absent from the nested `notes` object that
`this` refers to, so nothing is enqueued, the `return` is never reached,
and the method rejects.  The result is the store at the throw point. -/
def create (userId : String) (noteData : NoteInput) (now : Nat)
    (st : LocalState) : LocalState :=
  let note : Note :=
    { id := st.notesNext
      user_id := userId
      title := noteData.title.getD ""
      content := noteData.content.getD ""
      type := noteData.type.getD "text"
      color := noteData.color.getD "default"
      pinned := noteData.pinned.getD false
      archived := false
      deleted := false
      created_at := now
      updated_at := now
      deleted_at := none
      metadata := noteData.metadata.getD "" }
  let stored : Note :=
    { note with sync_status := some .pending, last_modified := some now }
  { st with notes := st.notes ++ [stored], notesNext := st.notesNext + 1 }

/-- `offlineService.notes.update`: merge `{...updates, updated_at: now}`
over every note matching id and user.  The following
`this.addToSyncQueue(...)` throws (undefined on the nested `notes`
object), so no entry is enqueued and the method rejects after the
modify. -/
def update (noteId : Nat) (userId : String) (updates : NotePatch)
    (now : Nat) (st : LocalState) : LocalState :=
  let updated := { updates with updated_at := some now }
  { st with notes := st.notes.map fun n =>
    if n.id == noteId && n.user_id == userId then applyPatch n updated
    else n }

/-- The soft-delete update object of `offlineService.notes.delete`. -/
def softDeletePatch (now : Nat) : NotePatch :=
  { deleted := some true, deleted_at := some (some now),
    updated_at := some now }

/-- `offlineService.notes.delete`: the permanent branch removes the
matching rows, the other branch applies the soft-delete update object.
In both branches the following `this.addToSyncQueue(...)` throws
(undefined on the nested `notes` object), so the sync queue is left
unchanged and the method rejects after the table write. -/
def delete (noteId : Nat) (userId : String) (permanent : Bool) (now : Nat)
    (st : LocalState) : LocalState :=
  if permanent then
    { st with notes := st.notes.filter fun n =>
      !(n.id == noteId && n.user_id == userId) }
  else
    let updates := softDeletePatch now
    { st with notes := st.notes.map fun n =>
      if n.id == noteId && n.user_id == userId then applyPatch n updates
      else n }

/-- The restore update object of `offlineService.notes.restore`. -/
def restorePatch (now : Nat) : NotePatch :=
  { deleted := some false, deleted_at := some none,
    updated_at := some now }

/-- `offlineService.notes.restore`: apply the restore update object to
the matching rows; the following `this.addToSyncQueue(...)` throws
(undefined on the nested `notes` object), so nothing is enqueued and the
method rejects after the modify. -/
def restore (noteId : Nat) (userId : String) (now : Nat)
    (st : LocalState) : LocalState :=
  let updates := restorePatch now
  { st with notes := st.notes.map fun n =>
    if n.id == noteId && n.user_id == userId then applyPatch n updates
    else n }

/-- `offlineService.notes.markSynced`: set `sync_status = synced` on the
rows with the given id (the `updating` hook returns nothing, so nothing
else changes). -/
def markSynced (noteId : Nat) (st : LocalState) : LocalState :=
  { st with notes := st.notes.map fun n =>
    if n.id == noteId then { n with sync_status := some .synced } else n }

end notes

namespace labels

/-- `offlineService.labels.create`: store the label (the `creating` hook
stamps `sync_status = pending`); the following `this.addToSyncQueue(...)`
throws (undefined on the nested `labels` object), so nothing is enqueued
and the method rejects after the add. -/
def create (userId : String) (name : String) (now : Nat)
    (st : LocalState) : LocalState :=
  let label : Label :=
    { id := st.labelsNext, user_id := userId, name := name,
      created_at := now }
  let stored : Label := { label with sync_status := some .pending }
  { st with labels := st.labels ++ [stored]
            labelsNext := st.labelsNext + 1 }

/-- `offlineService.labels.update`: rename the matching rows; the
following `this.addToSyncQueue(...)` throws (undefined on the nested
`labels` object), so nothing is enqueued and the method rejects after
the modify. -/
def update (labelId : Nat) (userId : String) (name : String) (now : Nat)
    (st : LocalState) : LocalState :=
  { st with labels := st.labels.map fun l =>
    if l.id == labelId && l.user_id == userId then { l with name := name }
    else l }

/-- `offlineService.labels.delete`: remove all associations of the label,
then the label itself; the following `this.addToSyncQueue(...)` throws
(undefined on the nested `labels` object), so nothing is enqueued and
the method rejects after the deletes. -/
def delete (labelId : Nat) (userId : String) (now : Nat)
    (st : LocalState) : LocalState :=
  { st with
    note_labels := st.note_labels.filter fun a => !(a.label_id == labelId)
    labels := st.labels.filter fun l =>
      !(l.id == labelId && l.user_id == userId) }

/-- `offlineService.labels.addToNote`: store the association; the
following `this.addToSyncQueue(...)` throws (undefined on the nested
`labels` object), so nothing is enqueued and the method rejects after
the add. -/
def addToNote (noteId labelId : Nat) (now : Nat)
    (st : LocalState) : LocalState :=
  let assoc : NoteLabel :=
    { id := st.nlNext, note_id := noteId, label_id := labelId }
  { st with note_labels := st.note_labels ++ [assoc]
            nlNext := st.nlNext + 1 }

/-- `offlineService.labels.removeFromNote`: the lookup
`db.note_labels.where(['note_id','label_id'])` requires a compound index
`[note_id+label_id]` that the schema (`'++id, note_id, label_id,
sync_status'`) never declares, so the query rejects before anything is
read or written: the store is unchanged and the method rejects (the
later `this.addToSyncQueue` would throw as well). -/
def removeFromNote (noteId labelId : Nat) (now : Nat)
    (st : LocalState) : LocalState :=
  st

/-- `offlineService.labels.markSynced`. -/
def markSynced (labelId : Nat) (st : LocalState) : LocalState :=
  { st with labels := st.labels.map fun l =>
    if l.id == labelId then { l with sync_status := some .synced } else l }

end labels

/-- Stable insertion of an entry into a list already sorted by
`created_at` (the entry goes before the first element with a key not
smaller than its own). -/
def insertByCreated (x : SyncQueueEntry) :
    List SyncQueueEntry → List SyncQueueEntry
  | [] => [x]
  | y :: ys =>
    if x.created_at ≤ y.created_at then x :: y :: ys
    else y :: insertByCreated x ys

/-- Stable sort by `created_at`.  `db.sync_queue.orderBy('created_at')`
iterates the index in `(created_at, primary key)` order; since the table
list is in primary key order, a stable sort by `created_at` produces
exactly that order. -/
def sortByCreated : List SyncQueueEntry → List SyncQueueEntry
  | [] => []
  | x :: xs => insertByCreated x (sortByCreated xs)

/-- `offlineService.getSyncQueue`: the queue ordered by `created_at`. -/
def getSyncQueue (st : LocalState) : List SyncQueueEntry :=
  sortByCreated st.sync_queue

/-- `offlineService.removeSyncQueueItem`. -/
def removeSyncQueueItem (queueId : Nat) (st : LocalState) : LocalState :=
  { st with sync_queue := st.sync_queue.filter fun e => !(e.id == queueId) }

/-- `offlineService.incrementSyncRetries`. -/
def incrementSyncRetries (queueId : Nat) (st : LocalState) : LocalState :=
  { st with sync_queue := st.sync_queue.map fun e =>
    if e.id == queueId then { e with retries := e.retries + 1 } else e }

/-- `offlineService.cacheAIResponse`: `put` on a table with an inbound
auto-increment key and no key in the object behaves as an insert. -/
def cacheAIResponse (queryHash response : String) (ttlMinutes : Nat)
    (now : Nat) (st : LocalState) : LocalState :=
  let expiresAt := now + ttlMinutes * 60 * 1000
  { st with
    cached_ai_responses := st.cached_ai_responses ++
      [{ id := st.cacheNext, query_hash := queryHash, response := response,
         created_at := now, expires_at := expiresAt }]
    cacheNext := st.cacheNext + 1 }

/-- `offlineService.getCachedAIResponse`: take the first row for the hash;
if `expires_at < now` delete it and return nothing, otherwise return the
stored response. -/
def getCachedAIResponse (queryHash : String) (now : Nat)
    (st : LocalState) : Option String × LocalState :=
  match st.cached_ai_responses.find? fun c => c.query_hash == queryHash with
  | none => (none, st)
  | some cached =>
    if cached.expires_at < now then
      (none, { st with cached_ai_responses :=
        st.cached_ai_responses.filter fun c => !(c.id == cached.id) })
    else
      (some cached.response, st)

/-- `offlineService.clearExpiredCache`: drop rows with
`expires_at < now`. -/
def clearExpiredCache (now : Nat) (st : LocalState) : LocalState :=
  { st with cached_ai_responses := st.cached_ai_responses.filter fun c =>
    !(c.expires_at < now) }

/-- `offlineService.cleanup`: its first statement,
`db.notes.where('deleted').equals(true)`, uses a boolean key, which is
not a valid IndexedDB key, so the query rejects with a DataError and
`cleanup` throws before the trashed-note purge, the cache sweep and the
sync-queue purge ever execute: the store is left completely unchanged
(the caller only logs the failure). -/
def cleanup (now : Nat) (st : LocalState) : LocalState :=
  st

/-- The sync-queue purge statement of `cleanup` in isolation
(`db.sync_queue.where('created_at').below(oldSyncDate).delete()`, an
unconditional drop of entries older than 7 days): dead code at runtime,
because `cleanup` rejects on its first statement before reaching it. -/
def syncQueuePurge (now : Nat) (st : LocalState) : LocalState :=
  { st with sync_queue := st.sync_queue.filter fun e =>
    !(e.created_at < now - 7 * dayMs) }

/-- The snapshot document produced by `offlineService.exportData`. -/
structure ExportDoc where
  version : String
  exportDate : Nat
  userId : String
  notes : List Note
  labels : List Label
  noteLabels : List NoteLabel
  preferences : List Preference
deriving Repr, DecidableEq

/-- `offlineService.exportData`: owner-filtered notes, labels and
preferences, and the whole `note_labels` table. -/
def exportData (userId : String) (now : Nat) (st : LocalState) :
    ExportDoc :=
  { version := "1.0"
    exportDate := now
    userId := userId
    notes := st.notes.filter fun n => n.user_id == userId
    labels := st.labels.filter fun l => l.user_id == userId
    noteLabels := st.note_labels
    preferences := st.user_preferences.filter fun p =>
      p.user_id == userId }

end offlineService

/-- The remote (Supabase) tables reachable through the service adapters. -/
structure RemoteState where
  notes : List Note := []
  labels : List Label := []
  note_labels : List NoteLabel := []
  notesNext : Nat := 1
  labelsNext : Nat := 1
  nlNext : Nat := 1
deriving Repr, DecidableEq

namespace notesService

/-- `notesService.createNote`: build the row (defaults applied with `||`,
`archived`/`deleted` forced false, fresh timestamps) and insert it. -/
def createNote (userId : String) (noteData : NoteInput) (now : Nat)
    (r : RemoteState) : Note × RemoteState :=
  let note : Note :=
    { id := r.notesNext
      user_id := userId
      title := noteData.title.getD ""
      content := noteData.content.getD ""
      type := noteData.type.getD "text"
      color := noteData.color.getD "default"
      pinned := noteData.pinned.getD false
      archived := false
      deleted := false
      created_at := now
      updated_at := now
      deleted_at := none
      metadata := noteData.metadata.getD "" }
  (note, { r with notes := r.notes ++ [note], notesNext := r.notesNext + 1 })

/-- `notesService.updateNote`: `{...updates, updated_at: now}` applied to
the rows matching id and user. -/
def updateNote (noteId : Nat) (userId : String) (updates : NotePatch)
    (now : Nat) (r : RemoteState) : RemoteState :=
  let updated := { updates with updated_at := some now }
  { r with notes := r.notes.map fun n =>
    if n.id == noteId && n.user_id == userId then applyPatch n updated
    else n }

/-- `notesService.moveToTrash`. -/
def moveToTrash (noteId : Nat) (userId : String) (now : Nat)
    (r : RemoteState) : RemoteState :=
  { r with notes := r.notes.map fun n =>
    if n.id == noteId && n.user_id == userId then
      { n with deleted := true, deleted_at := some now, updated_at := now }
    else n }

/-- `notesService.restoreNote`. -/
def restoreNote (noteId : Nat) (userId : String) (now : Nat)
    (r : RemoteState) : RemoteState :=
  { r with notes := r.notes.map fun n =>
    if n.id == noteId && n.user_id == userId then
      { n with deleted := false, deleted_at := none, updated_at := now }
    else n }

/-- `notesService.deleteNote`: remove the matching rows from `notes`
(nothing else is touched). -/
def deleteNote (noteId : Nat) (userId : String)
    (r : RemoteState) : RemoteState :=
  { r with notes := r.notes.filter fun n =>
    !(n.id == noteId && n.user_id == userId) }

end notesService

namespace labelsService

/-- `labelsService.createLabel`. -/
def createLabel (userId : String) (name : String) (now : Nat)
    (r : RemoteState) : Label × RemoteState :=
  let label : Label :=
    { id := r.labelsNext, user_id := userId, name := name,
      created_at := now }
  (label,
   { r with labels := r.labels ++ [label], labelsNext := r.labelsNext + 1 })

/-- `labelsService.updateLabel`. -/
def updateLabel (labelId : Nat) (userId : String) (name : String)
    (r : RemoteState) : RemoteState :=
  { r with labels := r.labels.map fun l =>
    if l.id == labelId && l.user_id == userId then { l with name := name }
    else l }

/-- `labelsService.deleteLabel`: first remove all associations of the
label, then the label itself. -/
def deleteLabel (labelId : Nat) (userId : String)
    (r : RemoteState) : RemoteState :=
  { r with
    note_labels := r.note_labels.filter fun a => !(a.label_id == labelId)
    labels := r.labels.filter fun l =>
      !(l.id == labelId && l.user_id == userId) }

/-- `labelsService.addLabelToNote`: insert the association row; `none`
arguments stand for `undefined` ids (nothing sensible is inserted then,
which only arises on payloads no enqueue site produces). -/
def addLabelToNote (noteId labelId : Option Nat)
    (r : RemoteState) : RemoteState :=
  match noteId, labelId with
  | some nid, some lid =>
    { r with
      note_labels := r.note_labels ++
        [{ id := r.nlNext, note_id := nid, label_id := lid }]
      nlNext := r.nlNext + 1 }
  | _, _ => r

/-- `labelsService.removeLabelFromNote`: delete the rows matching both
ids; an `undefined` id matches no row. -/
def removeLabelFromNote (noteId labelId : Option Nat)
    (r : RemoteState) : RemoteState :=
  match noteId, labelId with
  | some nid, some lid =>
    { r with note_labels := r.note_labels.filter fun a =>
      !(a.note_id == nid && a.label_id == lid) }
  | _, _ => r

end labelsService

/-- Combined application state: the Dexie store plus the remote store. -/
structure AppState where
  loc : LocalState := {}
  remote : RemoteState := {}
deriving Repr, DecidableEq

/-! ## The connectivity-routing facade (`NotesProvider`)

Every mutating operation branches on `isOnline`: the online branch calls
only the remote service, the offline branch calls only the local store.
`rok` is the success oracle for the remote call of the online branch.
Each operation returns the resulting state together with its outcome
(`none`/`false` for a rejected promise): a failed online remote call
rethrows with nothing changed, and every offline call rejects at the
broken `this.addToSyncQueue` (or, for `removeLabelFromNote`, at the
missing compound index) after its local writes, so the offline outcome
is always a rejection with the local write applied and nothing
enqueued. -/

namespace NotesProvider

/-- `createNote` of `NotesProvider`: returns the created note on the
successful online path; the offline path stores the note locally and
rejects. -/
def createNote (isOnline rok : Bool) (userId : String)
    (noteData : NoteInput) (now : Nat) (st : AppState) :
    Option Note × AppState :=
  if isOnline then
    if rok then
      let (n, r) := notesService.createNote userId noteData now st.remote
      (some n, { st with remote := r })
    else (none, st)
  else
    let l := offlineService.notes.create userId noteData now st.loc
    (none, { st with loc := l })

/-- `updateNote` of `NotesProvider`: the `Bool` is whether the call
resolved. -/
def updateNote (isOnline rok : Bool) (noteId : Nat) (userId : String)
    (updates : NotePatch) (now : Nat) (st : AppState) : Bool × AppState :=
  if isOnline then
    if rok then
      let r := notesService.updateNote noteId userId updates now st.remote
      (true, { st with remote := r })
    else (false, st)
  else
    let l := offlineService.notes.update noteId userId updates now st.loc
    (false, { st with loc := l })

/-- `deleteNote` of `NotesProvider`: the `Bool` is whether the call
resolved. -/
def deleteNote (isOnline rok : Bool) (noteId : Nat) (userId : String)
    (permanent : Bool) (now : Nat) (st : AppState) : Bool × AppState :=
  if isOnline then
    if rok then
      if permanent then
        let r := notesService.deleteNote noteId userId st.remote
        (true, { st with remote := r })
      else
        let r := notesService.moveToTrash noteId userId now st.remote
        (true, { st with remote := r })
    else (false, st)
  else
    let l := offlineService.notes.delete noteId userId permanent now
      st.loc
    (false, { st with loc := l })

/-- `restoreNote` of `NotesProvider`: the `Bool` is whether the call
resolved. -/
def restoreNote (isOnline rok : Bool) (noteId : Nat) (userId : String)
    (now : Nat) (st : AppState) : Bool × AppState :=
  if isOnline then
    if rok then
      let r := notesService.restoreNote noteId userId now st.remote
      (true, { st with remote := r })
    else (false, st)
  else
    let l := offlineService.notes.restore noteId userId now st.loc
    (false, { st with loc := l })

/-- `addLabelToNote` of `NotesProvider`: the `Bool` is whether the call
resolved. -/
def addLabelToNote (isOnline rok : Bool) (noteId labelId : Nat)
    (now : Nat) (st : AppState) : Bool × AppState :=
  if isOnline then
    if rok then
      let r := labelsService.addLabelToNote (some noteId) (some labelId)
        st.remote
      (true, { st with remote := r })
    else (false, st)
  else
    let l := offlineService.labels.addToNote noteId labelId now st.loc
    (false, { st with loc := l })

/-- `removeLabelFromNote` of `NotesProvider`: the `Bool` is whether the
call resolved.  The offline branch rejects at the compound-index lookup
with nothing changed. -/
def removeLabelFromNote (isOnline rok : Bool) (noteId labelId : Nat)
    (now : Nat) (st : AppState) : Bool × AppState :=
  if isOnline then
    if rok then
      let r := labelsService.removeLabelFromNote (some noteId)
        (some labelId) st.remote
      (true, { st with remote := r })
    else (false, st)
  else
    let l := offlineService.labels.removeFromNote noteId labelId now
      st.loc
    (false, { st with loc := l })

end NotesProvider

/-! ## The sync orchestrator (`OfflineProvider.syncWithServer`)

The drain snapshots the queue via `getSyncQueue`, then processes each
entry in order: replay it against the remote store
(`processSyncQueueItem`); on success remove the entry; on an exception
increment the entry's retries in the store and, when the *snapshot's*
`item.retries` is already `≥ 3`, remove the entry.  `ok` is the success
oracle for the remote call of an entry in this drain; the only other
exception source is the unknown-operation throw of `syncNoteLabel` for an
`update` operation on `note_labels`. -/

namespace sync

/-- Field accessors of a payload object, with the `||` defaults of
`notesService.createNote` for absent properties. -/
def payloadNoteInput : SyncPayload → NoteInput
  | .pNote n =>
    { title := some n.title, content := some n.content,
      type := some n.type, color := some n.color,
      pinned := some n.pinned, metadata := some n.metadata }
  | _ => {}

/-- The update object carried by a notes `update` payload. -/
def payloadPatch : SyncPayload → NotePatch
  | .pPatch p => p
  | _ => {}

/-- `data.permanent` truthiness. -/
def payloadPermanent : SyncPayload → Bool
  | .pPerm => true
  | _ => false

/-- `data.name` with the `undefined`-tolerant reads of `syncLabel`. -/
def payloadName : SyncPayload → String
  | .pLabel l => l.name
  | .pName s => s
  | _ => ""

/-- `data.note_id` of an association payload (`none` = `undefined`). -/
def payloadNoteId : SyncPayload → Option Nat
  | .pAssoc nid _ => some nid
  | _ => none

/-- `data.label_id` of an association payload (`none` = `undefined`). -/
def payloadLabelId : SyncPayload → Option Nat
  | .pAssoc _ lid => some lid
  | _ => none

/-- Whether `processSyncQueueItem` completes without an exception for this
entry: the remote call must succeed, and `syncNoteLabel` throws on an
`update` operation.  This does not depend on the current state. -/
def entryOk (ok : SyncQueueEntry → Bool) (e : SyncQueueEntry) : Bool :=
  ok e && !(e.table_name == .note_labels && e.operation == .update)

/-- The state effect of a successful `processSyncQueueItem`: the remote
call of `syncNote` / `syncLabel` / `syncNoteLabel`, followed by the local
`markSynced` where the source performs one. -/
def applySuccess (userId : String) (now : Nat) (e : SyncQueueEntry)
    (st : AppState) : AppState :=
  match e.table_name, e.operation with
  | .notes, .create =>
    let (_, r) := notesService.createNote userId (payloadNoteInput e.data)
      now st.remote
    { loc := offlineService.notes.markSynced e.record_id st.loc,
      remote := r }
  | .notes, .update =>
    let r := notesService.updateNote e.record_id userId
      (payloadPatch e.data) now st.remote
    { loc := offlineService.notes.markSynced e.record_id st.loc,
      remote := r }
  | .notes, .delete =>
    if payloadPermanent e.data then
      let r := notesService.deleteNote e.record_id userId st.remote
      { st with remote := r }
    else
      let r := notesService.moveToTrash e.record_id userId now st.remote
      { st with remote := r }
  | .labels, .create =>
    let (_, r) := labelsService.createLabel userId (payloadName e.data)
      now st.remote
    { loc := offlineService.labels.markSynced e.record_id st.loc,
      remote := r }
  | .labels, .update =>
    let r := labelsService.updateLabel e.record_id userId
      (payloadName e.data) st.remote
    { loc := offlineService.labels.markSynced e.record_id st.loc,
      remote := r }
  | .labels, .delete =>
    let r := labelsService.deleteLabel e.record_id userId st.remote
    { st with remote := r }
  | .note_labels, .create =>
    let r := labelsService.addLabelToNote
      (payloadNoteId e.data) (payloadLabelId e.data) st.remote
    { st with remote := r }
  | .note_labels, .delete =>
    let r := labelsService.removeLabelFromNote
      (payloadNoteId e.data) (payloadLabelId e.data) st.remote
    { st with remote := r }
  | .note_labels, .update => st

/-- One iteration of the drain loop for a snapshot entry `e`. -/
def syncStep (userId : String) (now : Nat) (ok : SyncQueueEntry → Bool)
    (e : SyncQueueEntry) (st : AppState) : AppState :=
  if entryOk ok e then
    let st1 := applySuccess userId now e st
    { st1 with loc := offlineService.removeSyncQueueItem e.id st1.loc }
  else
    let l1 := offlineService.incrementSyncRetries e.id st.loc
    let st1 := { st with loc := l1 }
    if e.retries ≥ 3 then
      { st1 with loc := offlineService.removeSyncQueueItem e.id st1.loc }
    else st1

/-- The drain loop over the remaining snapshot, also returning the ids of
the entries processed, in processing order. -/
def drainGo (userId : String) (now : Nat) (ok : SyncQueueEntry → Bool) :
    List SyncQueueEntry → AppState → AppState × List Nat
  | [], st => (st, [])
  | e :: rest, st =>
    let res := drainGo userId now ok rest (syncStep userId now ok e st)
    (res.1, e.id :: res.2)

/-- `syncWithServer`: snapshot the queue in `created_at` order and run the
drain loop over it. -/
def syncWithServer (userId : String) (now : Nat)
    (ok : SyncQueueEntry → Bool) (st : AppState) : AppState × List Nat :=
  drainGo userId now ok (offlineService.getSyncQueue st.loc) st

end sync

/-! ## Characterizations and example states used by the verification -/

namespace sync

/-- Pointwise fate of a queue entry in one drain whose snapshot contains
it exactly once: removed on success, removed on failure when its snapshot
`retries` is already at the cap, otherwise kept with `retries + 1`. -/
def bump (ok : SyncQueueEntry → Bool) (e : SyncQueueEntry) :
    Option SyncQueueEntry :=
  if entryOk ok e then none
  else if 3 ≤ e.retries then none
  else some { e with retries := e.retries + 1 }

/-- The effect of one drain-loop iteration on the live queue, as a
function of the snapshot entry processed. -/
def stepQ (ok : SyncQueueEntry → Bool) (s : SyncQueueEntry)
    (q : List SyncQueueEntry) : List SyncQueueEntry :=
  if entryOk ok s then q.filter fun e => !(e.id == s.id)
  else if 3 ≤ s.retries then
    (q.map fun e =>
      if e.id == s.id then { e with retries := e.retries + 1 }
      else e).filter fun e => !(e.id == s.id)
  else q.map fun e =>
    if e.id == s.id then { e with retries := e.retries + 1 } else e

/-- Strict ordering of queue entries by the `(created_at, id)` index a
drain snapshot follows. -/
def lexLt (a b : SyncQueueEntry) : Prop :=
  a.created_at < b.created_at ∨
    (a.created_at = b.created_at ∧ a.id < b.id)

end sync

/-- Well-formedness of a queue table list: primary keys strictly increase
along the list, which every enqueue maintains. -/
def QueueWF (q : List SyncQueueEntry) : Prop :=
  q.Pairwise fun a b => a.id < b.id

/-- An association row used by the concrete counterexample states. -/
def assoc12 : NoteLabel := { id := 5, note_id := 1, label_id := 2 }

/-- A concrete state holding one locally created note-label association
and its pending `create` queue entry. -/
def assocAppState : AppState :=
  { loc := { note_labels := [assoc12]
             sync_queue := [{ id := 7, table_name := .note_labels,
                              record_id := 5, operation := .create,
                              data := .pAssoc 1 2, created_at := 3,
                              retries := 0 }]
             nlNext := 6, queueNext := 8 } }

/-- A concrete note used by the drain examples. -/
def note1 : Note :=
  { id := 1, user_id := "u", title := "t", content := "c",
    type := "text", color := "default", pinned := false,
    archived := false, deleted := false, created_at := 0,
    updated_at := 0, sync_status := some .pending }

/-- A concrete state holding one note and one pending `update` entry for
it with `retries = 0`. -/
def updAppState : AppState :=
  { loc := { notes := [note1]
             sync_queue := [{ id := 1, table_name := .notes,
                              record_id := 1, operation := .update,
                              data := .pPatch {}, created_at := 0,
                              retries := 0 }]
             notesNext := 2, queueNext := 2 } }

/-- A note owned by user `A`. -/
def noteA : Note :=
  { id := 1, user_id := "A", title := "a", content := "", type := "text",
    color := "default", pinned := false, archived := false,
    deleted := false, created_at := 0, updated_at := 0 }

/-- A note owned by user `B`. -/
def noteB : Note :=
  { id := 2, user_id := "B", title := "b", content := "", type := "text",
    color := "default", pinned := false, archived := false,
    deleted := false, created_at := 0, updated_at := 0 }

/-- A local state with one note per owner and one association on owner
`B`'s note. -/
def twoOwnerState : LocalState :=
  { notes := [noteA, noteB]
    note_labels := [{ id := 1, note_id := 2, label_id := 7 }]
    notesNext := 3, nlNext := 2 }

/-- A local state with one note and one association referencing it. -/
def noteWithAssocState : LocalState :=
  { notes := [note1], note_labels := [assoc12], notesNext := 2,
    nlNext := 6 }

/-- A remote state with one note and one association referencing it. -/
def remoteWithAssoc : RemoteState :=
  { notes := [{ note1 with sync_status := none }]
    note_labels := [assoc12], notesNext := 2, nlNext := 6 }

/-- A local state holding one cached AI response that expires at 100. -/
def cacheState : LocalState :=
  { cached_ai_responses :=
      [{ id := 1, query_hash := "h", response := "resp", created_at := 0,
         expires_at := 100 }]
    cacheNext := 2 }

/-! ## Claim C6: soft-delete / restore round trip -/

/-- C6: restoring a soft-deleted note is a round trip: for every state,
note id, owner and pair of clock values, `restore` after a non-permanent
`delete` leaves every matching note equal to its original value on all
fields except `deleted`, `deleted_at` and `updated_at` (and leaves
non-matching notes untouched). -/
theorem C6_softDelete_restore_roundtrip (st : LocalState) (noteId : Nat)
    (userId : String) (t1 t2 : Nat) :
    (offlineService.notes.restore noteId userId t2
      (offlineService.notes.delete noteId userId false t1 st)).notes
    = st.notes.map fun n =>
        if n.id == noteId && n.user_id == userId then
          { n with deleted := false, deleted_at := none, updated_at := t2 }
        else n := by
  simp only [offlineService.notes.delete, offlineService.notes.restore,
    offlineService.addToSyncQueue, if_neg Bool.false_ne_true,
    List.map_map]
  refine List.map_congr_left fun n _ => ?_
  by_cases h : (n.id == noteId && n.user_id == userId) = true
  · simp [h, Function.comp, applyPatch,
      offlineService.notes.softDeletePatch,
      offlineService.notes.restorePatch]
  · simp [Function.comp, h]

/-! ## Claim C7: hard delete -/

/-- C7: hard-deleting a note (local path, permanent branch) removes the
matching rows from the local store irrecoverably and leaves the sync
queue (contents and counter) unchanged: the enqueue statement that
follows the delete throws before appending anything, so no sync-queue
entry is created for a hard deletion. -/
theorem C7_hardDelete_removes_and_leaves_queue (st : LocalState)
    (noteId : Nat) (userId : String) (now : Nat) :
    (offlineService.notes.delete noteId userId true now st).notes
      = st.notes.filter (fun n => !(n.id == noteId && n.user_id == userId))
    ∧ (offlineService.notes.delete noteId userId true now st).sync_queue
      = st.sync_queue
    ∧ (offlineService.notes.delete noteId userId true now st).queueNext
      = st.queueNext := by
  refine ⟨?_, ?_, ?_⟩ <;> simp [offlineService.notes.delete]

/-! ## Claim C10: maintenance sweep of old queue entries -/

/-- C10: `cleanup` rejects on its very first query (a boolean IndexedDB
key) and therefore never purges anything: the whole local store —
including every sync-queue entry older than 7 days with retries below
the cap — is exactly as before, while the unconditional queue purge the
dead code after that query spells out would have dropped such an entry.
Evaluated at the failing input: a week-old pending update entry with
zero retries survives maintenance. -/
theorem C10_cleanup_rejects_and_purges_nothing :
    (∀ (st : LocalState) (now : Nat), offlineService.cleanup now st = st)
    ∧ ({ id := 1, table_name := .notes, record_id := 1,
         operation := .update, data := .pPatch {}, created_at := 0,
         retries := 0 } : SyncQueueEntry)
      ∈ (offlineService.cleanup (7 * dayMs + 1)
          updAppState.loc).sync_queue
    ∧ ({ id := 1, table_name := .notes, record_id := 1,
         operation := .update, data := .pPatch {}, created_at := 0,
         retries := 0 } : SyncQueueEntry)
      ∉ (offlineService.syncQueuePurge (7 * dayMs + 1)
          updAppState.loc).sync_queue := by
  refine ⟨fun st now => rfl, by decide, by decide⟩

/-! ## Claim C5: association cascade on note deletion -/

/-- C5 counterexample: on a concrete state with one note and one
association referencing it, permanently deleting the note (local path)
removes the note but leaves the association in the store, and the remote
`deleteNote` likewise leaves the remote association in place. -/
theorem C5_counterexample_assoc_survives_note_delete :
    ((offlineService.notes.delete 1 "u" true 10 noteWithAssocState).notes
        = []
      ∧ (offlineService.notes.delete 1 "u" true 10
          noteWithAssocState).note_labels = [assoc12]
      ∧ assoc12.note_id = 1)
    ∧ ((notesService.deleteNote 1 "u" remoteWithAssoc).notes = []
      ∧ (notesService.deleteNote 1 "u" remoteWithAssoc).note_labels
        = [assoc12]) := by
  decide

/-- C5 amended: deleting a Label cascades deletion of all its
associations, on both the local and the remote path; deleting a Note
(soft or permanent, local or remote path) leaves the note-label
associations exactly as they were. -/
theorem C5_label_cascades_note_does_not (st : LocalState)
    (r : RemoteState) (noteId labelId : Nat) (userId : String)
    (permanent : Bool) (now : Nat) :
    ((offlineService.notes.delete noteId userId permanent now
        st).note_labels = st.note_labels
      ∧ (notesService.deleteNote noteId userId r).note_labels
        = r.note_labels
      ∧ (notesService.moveToTrash noteId userId now r).note_labels
        = r.note_labels)
    ∧ ((∀ a ∈ (offlineService.labels.delete labelId userId now
          st).note_labels, a.label_id ≠ labelId)
      ∧ ∀ a ∈ (labelsService.deleteLabel labelId userId r).note_labels,
          a.label_id ≠ labelId) := by
  refine ⟨⟨?_, rfl, rfl⟩, ?_, ?_⟩
  · by_cases h : permanent <;>
      simp [offlineService.notes.delete, offlineService.addToSyncQueue, h]
  · intro a ha
    simp [offlineService.labels.delete, offlineService.addToSyncQueue,
      List.mem_filter] at ha
    exact ha.2
  · intro a ha
    simp [labelsService.deleteLabel, List.mem_filter] at ha
    exact ha.2

/-! ## Claim C9: export snapshot scoping -/

/-- C9 counterexample: exporting owner `A` from a concrete two-owner
state produces a snapshot whose association list contains the association
of owner `B`'s note (the only note with that id belongs to `B`), so the
snapshot does not contain only `A`'s records. -/
theorem C9_counterexample_foreign_assoc_exported :
    (offlineService.exportData "A" 50 twoOwnerState).noteLabels
      = [{ id := 1, note_id := 2, label_id := 7 }]
    ∧ (∀ n ∈ twoOwnerState.notes, n.id = 2 → n.user_id = "B")
    ∧ ∀ n ∈ (offlineService.exportData "A" 50 twoOwnerState).notes,
        n.user_id = "A" := by
  decide

/-- C9 amended: the export snapshot contains exactly the owner's notes,
labels and preferences, but the association list is the entire
`note_labels` table, regardless of owner. -/
theorem C9_export_scoping (st : LocalState) (userId : String)
    (now : Nat) :
    (∀ n : Note, n ∈ (offlineService.exportData userId now st).notes
      ↔ n ∈ st.notes ∧ n.user_id = userId)
    ∧ (∀ l : Label, l ∈ (offlineService.exportData userId now st).labels
      ↔ l ∈ st.labels ∧ l.user_id = userId)
    ∧ (∀ p : Preference,
        p ∈ (offlineService.exportData userId now st).preferences
      ↔ p ∈ st.user_preferences ∧ p.user_id = userId)
    ∧ (offlineService.exportData userId now st).noteLabels
      = st.note_labels := by
  refine ⟨?_, ?_, ?_, rfl⟩ <;> intro x <;>
    simp [offlineService.exportData, List.mem_filter]

/-! ## Claim C8: cache TTL boundary -/

/-- C8 counterexample: reading a cached response at a time equal to its
`expires_at` returns the stored payload and does not evict — the claim
requires nothing to be returned and the entry to be evicted at that
instant. -/
theorem C8_counterexample_payload_at_expiry :
    offlineService.getCachedAIResponse "h" 100 cacheState
      = (some "resp", cacheState) := by
  decide

/-- C8 amended: for the first cached row matching the hash, a read at any
time not after `expires_at` (including the boundary instant itself)
returns the stored payload and leaves the store unchanged; a read
strictly after `expires_at` returns nothing and evicts the row. -/
theorem C8_cache_ttl (st : LocalState) (queryHash : String) (now : Nat)
    (c : CachedResponse)
    (hfind : st.cached_ai_responses.find?
      (fun x => x.query_hash == queryHash) = some c) :
    (¬ c.expires_at < now →
      offlineService.getCachedAIResponse queryHash now st
        = (some c.response, st))
    ∧ (c.expires_at < now →
      offlineService.getCachedAIResponse queryHash now st
        = (none, { st with cached_ai_responses :=
            st.cached_ai_responses.filter fun x => !(x.id == c.id) })) := by
  constructor <;> intro h <;>
    simp [offlineService.getCachedAIResponse, hfind, h]

/-- C8 witness: the amended theorem applied to the concrete one-row cache
state read strictly after expiry. -/
theorem C8_cache_ttl_witness :
    offlineService.getCachedAIResponse "h" 101 cacheState
      = (none, { cacheState with cached_ai_responses :=
          cacheState.cached_ai_responses.filter fun x => !(x.id == 1) }) :=
  (C8_cache_ttl cacheState "h" 101
    { id := 1, query_hash := "h", response := "resp", created_at := 0,
      expires_at := 100 } (by decide)).2 (by decide)

/-! ## Snapshot-order lemmas for the drain -/

theorem mem_insertByCreated {a x : SyncQueueEntry}
    {l : List SyncQueueEntry} :
    a ∈ offlineService.insertByCreated x l ↔ a = x ∨ a ∈ l := by
  induction l with
  | nil => simp [offlineService.insertByCreated]
  | cons y ys ih =>
    unfold offlineService.insertByCreated
    by_cases h : x.created_at ≤ y.created_at <;> simp [h, ih] <;> tauto

theorem insertByCreated_perm (x : SyncQueueEntry)
    (l : List SyncQueueEntry) :
    (offlineService.insertByCreated x l).Perm (x :: l) := by
  induction l with
  | nil => simp [offlineService.insertByCreated]
  | cons y ys ih =>
    unfold offlineService.insertByCreated
    by_cases h : x.created_at ≤ y.created_at
    · simp [h]
    · simp only [if_neg h]
      exact (ih.cons y).trans (List.Perm.swap x y ys)

theorem sortByCreated_perm (l : List SyncQueueEntry) :
    (offlineService.sortByCreated l).Perm l := by
  induction l with
  | nil => simp [offlineService.sortByCreated]
  | cons x xs ih =>
    exact (insertByCreated_perm x
      (offlineService.sortByCreated xs)).trans (ih.cons x)

theorem lexLt_created_le {a b : SyncQueueEntry} (h : sync.lexLt a b) :
    a.created_at ≤ b.created_at := by
  rcases h with h | ⟨h, _⟩
  · exact Nat.le_of_lt h
  · exact Nat.le_of_eq h

theorem pairwise_lexLt_insert (x : SyncQueueEntry)
    {l : List SyncQueueEntry} (hid : ∀ y ∈ l, x.id < y.id)
    (hp : l.Pairwise sync.lexLt) :
    (offlineService.insertByCreated x l).Pairwise sync.lexLt := by
  induction l with
  | nil => simp [offlineService.insertByCreated]
  | cons y ys ih =>
    rcases List.pairwise_cons.mp hp with ⟨hy, hys⟩
    unfold offlineService.insertByCreated
    by_cases hle : x.created_at ≤ y.created_at
    · simp only [if_pos hle]
      refine List.Pairwise.cons ?_ hp
      intro z hz
      have hcz : x.created_at ≤ z.created_at := by
        rcases List.mem_cons.mp hz with rfl | hzz
        · exact hle
        · exact hle.trans (lexLt_created_le (hy z hzz))
      have hiz : x.id < z.id := by
        rcases List.mem_cons.mp hz with rfl | hzz
        · exact hid z (List.mem_cons_self z ys)
        · exact hid z (List.mem_cons_of_mem y hzz)
      rcases Nat.lt_or_ge x.created_at z.created_at with h | h
      · exact Or.inl h
      · exact Or.inr ⟨Nat.le_antisymm hcz h, hiz⟩
    · simp only [if_neg hle]
      refine List.Pairwise.cons ?_
        (ih (fun z hz => hid z (List.mem_cons_of_mem y hz)) hys)
      intro z hz
      rcases mem_insertByCreated.mp hz with rfl | hz
      · exact Or.inl (Nat.lt_of_not_le hle)
      · exact hy z hz

theorem sortByCreated_pairwise {q : List SyncQueueEntry}
    (hwf : QueueWF q) :
    (offlineService.sortByCreated q).Pairwise sync.lexLt := by
  induction q with
  | nil => simp [offlineService.sortByCreated]
  | cons x xs ih =>
    rcases List.pairwise_cons.mp hwf with ⟨hx, hxs⟩
    refine pairwise_lexLt_insert x ?_ (ih hxs)
    intro y hy
    exact hx y ((sortByCreated_perm xs).mem_iff.mp hy)

theorem drainGo_trace (userId : String) (now : Nat)
    (ok : SyncQueueEntry → Bool) (l : List SyncQueueEntry)
    (st : AppState) :
    (sync.drainGo userId now ok l st).2 = l.map (·.id) := by
  induction l generalizing st with
  | nil => rfl
  | cons e rest ih => simp [sync.drainGo, ih]

theorem pairwise_indices_of_lexLt {l : List SyncQueueEntry}
    {e1 e2 : SyncQueueEntry} (hp : l.Pairwise sync.lexLt)
    (h1 : e1 ∈ l) (h2 : e2 ∈ l) (hlt : sync.lexLt e1 e2) :
    ∃ i j : Nat, i < j ∧ l.get? i = some e1 ∧ l.get? j = some e2 := by
  rcases List.get_of_mem h1 with ⟨i, hi⟩
  rcases List.get_of_mem h2 with ⟨j, hj⟩
  have hget := List.pairwise_iff_get.mp hp
  have hij : (i : Nat) < (j : Nat) := by
    rcases Nat.lt_trichotomy (i : Nat) (j : Nat) with h | h | h
    · exact h
    · exfalso
      have : e1 = e2 := by
        rw [← hi, ← hj]
        congr 1
        exact Fin.ext h
      subst this
      rcases hlt with h | ⟨_, h⟩ <;> omega
    · exfalso
      have := hget j i (by exact h)
      rw [hi, hj] at this
      rcases hlt with ha | ⟨ha1, ha2⟩ <;>
        rcases this with hb | ⟨hb1, hb2⟩ <;> omega
  refine ⟨i, j, hij, ?_, ?_⟩
  · rw [List.get?_eq_get i.isLt, hi]
  · rw [List.get?_eq_get j.isLt, hj]

/-! ## Claim C4: drain order -/

/-- C4: a drain processes the queue snapshot strictly in `created_at`
order (primary key as the stable tie-break): for any two queue entries
where the first was enqueued earlier (smaller primary key and a
`created_at` not later than the second's), the drain's processing trace
applies the first entry strictly before the second. -/
theorem C4_drain_applies_in_creation_order (st : AppState)
    (userId : String) (now : Nat) (ok : SyncQueueEntry → Bool)
    (e1 e2 : SyncQueueEntry) (hwf : QueueWF st.loc.sync_queue)
    (h1 : e1 ∈ st.loc.sync_queue) (h2 : e2 ∈ st.loc.sync_queue)
    (hid : e1.id < e2.id) (hts : e1.created_at ≤ e2.created_at) :
    ∃ i j : Nat, i < j
      ∧ (sync.syncWithServer userId now ok st).2.get? i = some e1.id
      ∧ (sync.syncWithServer userId now ok st).2.get? j = some e2.id := by
  have hperm := sortByCreated_perm st.loc.sync_queue
  have hp := sortByCreated_pairwise hwf
  have hlt : sync.lexLt e1 e2 := by
    rcases Nat.lt_or_ge e1.created_at e2.created_at with h | h
    · exact Or.inl h
    · exact Or.inr ⟨Nat.le_antisymm hts h, hid⟩
  rcases pairwise_indices_of_lexLt hp (hperm.mem_iff.mpr h1)
    (hperm.mem_iff.mpr h2) hlt with ⟨i, j, hij, hgi, hgj⟩
  have htr : (sync.syncWithServer userId now ok st).2
      = (offlineService.sortByCreated st.loc.sync_queue).map (·.id) := by
    simp [sync.syncWithServer, drainGo_trace, offlineService.getSyncQueue]
  refine ⟨i, j, hij, ?_, ?_⟩
  · rw [htr, List.get?_map, hgi]
    rfl
  · rw [htr, List.get?_map, hgj]
    rfl

/-- A two-entry queue state: a `create` for note 1 enqueued before an
`update` for note 1. -/
def twoEntryState : AppState :=
  { loc := { notes := [note1]
             sync_queue :=
               [{ id := 1, table_name := .notes, record_id := 1,
                  operation := .create, data := .pNote note1,
                  created_at := 0, retries := 0 },
                { id := 2, table_name := .notes, record_id := 1,
                  operation := .update, data := .pPatch {},
                  created_at := 1, retries := 0 }]
             notesNext := 2, queueNext := 3 } }

/-- C4 witness: the ordering theorem applied to the concrete two-entry
queue. -/
theorem C4_drain_order_witness :
    ∃ i j : Nat, i < j
      ∧ (sync.syncWithServer "u" 5 (fun _ => true)
          twoEntryState).2.get? i = some 1
      ∧ (sync.syncWithServer "u" 5 (fun _ => true)
          twoEntryState).2.get? j = some 2 :=
  C4_drain_applies_in_creation_order twoEntryState "u" 5 (fun _ => true)
    { id := 1, table_name := .notes, record_id := 1, operation := .create,
      data := .pNote note1, created_at := 0, retries := 0 }
    { id := 2, table_name := .notes, record_id := 1, operation := .update,
      data := .pPatch {}, created_at := 1, retries := 0 }
    (by unfold QueueWF; decide) (by decide) (by decide) (by decide)
    (by decide)

/-! ## Queue-evolution lemmas for one drain -/

theorem bump_eq_some {ok : SyncQueueEntry → Bool} {e b : SyncQueueEntry}
    (h : sync.bump ok e = some b) :
    b.id = e.id ∧ b.retries = e.retries + 1 ∧ e.retries ≤ 2
      ∧ sync.entryOk ok e = false := by
  unfold sync.bump at h
  by_cases hok : sync.entryOk ok e
  · simp [hok] at h
  · by_cases hr : 3 ≤ e.retries
    · simp [hok, hr] at h
    · simp [hok, hr] at h
      refine ⟨?_, ?_, by omega, by simp [hok]⟩ <;> rw [← h]

theorem bump_eq_none_of_entryOk {ok : SyncQueueEntry → Bool}
    {e : SyncQueueEntry} (h : sync.entryOk ok e = true) :
    sync.bump ok e = none := by
  simp [sync.bump, h]

/-- The queue effect of one drain iteration is `stepQ`. -/
theorem syncStep_queue (userId : String) (now : Nat)
    (ok : SyncQueueEntry → Bool) (s : SyncQueueEntry) (st : AppState) :
    (sync.syncStep userId now ok s st).loc.sync_queue
      = sync.stepQ ok s st.loc.sync_queue := by
  have happ : (sync.applySuccess userId now s st).loc.sync_queue
      = st.loc.sync_queue := by
    rcases s with ⟨i, tn, rid, op, d, ca, r⟩
    cases tn <;> cases op <;>
      simp [sync.applySuccess, offlineService.notes.markSynced,
        offlineService.labels.markSynced] <;>
      split <;> rfl
  unfold sync.syncStep sync.stepQ
  by_cases hok : sync.entryOk ok s
  · simp [hok, offlineService.removeSyncQueueItem, happ]
  · by_cases hr : 3 ≤ s.retries <;>
      simp [hok, hr, offlineService.removeSyncQueueItem,
        offlineService.incrementSyncRetries]

/-- The final queue of the drain loop is the fold of `stepQ` over the
snapshot. -/
theorem drainGo_queue (userId : String) (now : Nat)
    (ok : SyncQueueEntry → Bool) :
    ∀ (l : List SyncQueueEntry) (st : AppState),
    (sync.drainGo userId now ok l st).1.loc.sync_queue
      = l.foldl (fun q s => sync.stepQ ok s q) st.loc.sync_queue := by
  intro l
  induction l with
  | nil => intro st; rfl
  | cons s rest ih =>
    intro st
    simp only [sync.drainGo, List.foldl_cons]
    rw [ih, syncStep_queue]

/-- Pointwise description of `stepQ` on a queue whose entries with the
processed id all coincide with the snapshot entry. -/
theorem stepQ_eq_filterMap (ok : SyncQueueEntry → Bool)
    (s : SyncQueueEntry) :
    ∀ q : List SyncQueueEntry, (∀ e ∈ q, e.id = s.id → e = s) →
    sync.stepQ ok s q
      = q.filterMap fun e =>
          if e.id == s.id then sync.bump ok e else some e := by
  intro q
  induction q with
  | nil =>
    intro _
    unfold sync.stepQ
    split <;> simp
  | cons a q ih =>
    intro hq
    have ha := hq a (List.mem_cons_self a q)
    have hq2 : ∀ e ∈ q, e.id = s.id → e = s :=
      fun e he => hq e (List.mem_cons_of_mem a he)
    have ihq := ih hq2
    unfold sync.stepQ at ihq ⊢
    by_cases hok : sync.entryOk ok s
    · simp only [if_pos hok] at ihq ⊢
      rw [List.filter_cons, List.filterMap_cons]
      by_cases hid : (a.id == s.id) = true
      · have has : a = s := ha (beq_iff_eq.mp hid)
        have hb : sync.bump ok a = none := by
          rw [has]
          exact bump_eq_none_of_entryOk hok
        simp only [hid, hb, Bool.not_true, Bool.false_eq_true, if_false]
        exact ihq
      · have hb : (!(a.id == s.id)) = true := by
          simp [hid]
        simp only [hid, hb, Bool.false_eq_true, if_false, if_true]
        rw [ihq]
        simp
    · by_cases hr : 3 ≤ s.retries
      · simp only [if_neg hok, if_pos hr] at ihq ⊢
        rw [List.map_cons, List.filter_cons, List.filterMap_cons]
        by_cases hid : (a.id == s.id) = true
        · have has : a = s := ha (beq_iff_eq.mp hid)
          have hb : sync.bump ok a = none := by
            rw [has]
            simp [sync.bump, hok, hr]
          simp only [hid, if_true, hb]
          have hidinc : (({ a with retries := a.retries + 1 }
              : SyncQueueEntry).id == s.id) = true := hid
          simp only [hidinc, Bool.not_true, Bool.false_eq_true, if_false]
          exact ihq
        · have hb : (!(a.id == s.id)) = true := by
            simp [hid]
          simp only [hid, Bool.false_eq_true, if_false, hb, if_true]
          rw [ihq]
          simp
      · simp only [if_neg hok, if_neg hr] at ihq ⊢
        rw [List.map_cons, List.filterMap_cons]
        by_cases hid : (a.id == s.id) = true
        · have has : a = s := ha (beq_iff_eq.mp hid)
          have hb : sync.bump ok a
              = some { a with retries := a.retries + 1 } := by
            rw [has]
            simp [sync.bump, hok, hr]
          simp only [hid, if_true, hb]
          rw [ihq]
        · simp only [hid, Bool.false_eq_true, if_false]
          rw [ihq]

/-- Entries of distinct ids are processed independently: folding `stepQ`
over a snapshot with no duplicate ids transforms the queue pointwise. -/
theorem foldl_stepQ_characterization (ok : SyncQueueEntry → Bool) :
    ∀ l : List SyncQueueEntry, (l.map (·.id)).Nodup →
    ∀ q : List SyncQueueEntry,
      (∀ s ∈ l, ∀ e ∈ q, e.id = s.id → e = s) →
    l.foldl (fun q s => sync.stepQ ok s q) q
      = q.filterMap fun e =>
          if e.id ∈ l.map (·.id) then sync.bump ok e else some e := by
  intro l
  induction l with
  | nil =>
    intro _ q _
    simp
  | cons s rest ih =>
    intro hnd q hq
    have hnd2 : (rest.map (·.id)).Nodup := (List.nodup_cons.mp hnd).2
    have hsid : s.id ∉ rest.map (·.id) := (List.nodup_cons.mp hnd).1
    rw [List.foldl_cons,
      stepQ_eq_filterMap ok s q (hq s (List.mem_cons_self s rest))]
    have hq2 : ∀ t ∈ rest,
        ∀ e ∈ (q.filterMap fun e =>
          if e.id == s.id then sync.bump ok e else some e),
        e.id = t.id → e = t := by
      intro t ht e he hei
      rcases List.mem_filterMap.mp he with ⟨e0, he0, hfe0⟩
      by_cases h0 : (e0.id == s.id) = true
      · rw [if_pos h0] at hfe0
        have hbid := (bump_eq_some hfe0).1
        exfalso
        apply hsid
        have : t.id = s.id := by
          rw [← hei, hbid]
          exact beq_iff_eq.mp h0
        rw [← this]
        exact List.mem_map.mpr ⟨t, ht, rfl⟩
      · rw [if_neg h0] at hfe0
        injection hfe0 with h1
        subst h1
        exact hq t (List.mem_cons_of_mem s ht) e0 he0 hei
    rw [ih hnd2 _ hq2, List.filterMap_filterMap]
    refine List.filterMap_congr fun e he => ?_
    by_cases h0 : (e.id == s.id) = true
    · have hes : e = s := hq s (List.mem_cons_self s rest) e he
        (beq_iff_eq.mp h0)
      rw [if_pos h0]
      have hmem : e.id ∈ (s :: rest).map (·.id) := by
        simp [beq_iff_eq.mp h0]
      rw [if_pos hmem]
      cases hb : sync.bump ok e with
      | none => rfl
      | some b =>
        have hbid := (bump_eq_some hb).1
        simp only [Option.some_bind]
        rw [if_neg]
        rw [hbid, beq_iff_eq.mp h0]
        exact hsid
    · rw [if_neg h0]
      simp only [Option.some_bind]
      have : (e.id ∈ (s :: rest).map (·.id))
          ↔ (e.id ∈ rest.map (·.id)) := by
        simp only [List.map_cons, List.mem_cons]
        constructor
        · rintro (h | h)
          · exact absurd (beq_iff_eq.mpr h) h0
          · exact h
        · exact Or.inr
      by_cases hmem : e.id ∈ rest.map (·.id)
      · rw [if_pos hmem, if_pos (this.mpr hmem)]
      · rw [if_neg hmem, if_neg (fun hc => hmem (this.mp hc))]

/-- On a well-formed queue, one drain transforms the queue pointwise:
every entry is removed on success, removed on failure at the snapshot
retries cap, and kept with one more retry otherwise. -/
theorem drain_queue_characterization (userId : String) (now : Nat)
    (ok : SyncQueueEntry → Bool) (st : AppState)
    (hwf : QueueWF st.loc.sync_queue) :
    (sync.syncWithServer userId now ok st).1.loc.sync_queue
      = st.loc.sync_queue.filterMap (sync.bump ok) := by
  have hids : (st.loc.sync_queue.map (·.id)).Nodup :=
    List.pairwise_map.mpr (hwf.imp fun h => Nat.ne_of_lt h)
  have hperm := sortByCreated_perm st.loc.sync_queue
  have hsortids :
      ((offlineService.sortByCreated st.loc.sync_queue).map
        (·.id)).Nodup :=
    ((hperm.map (·.id)).nodup_iff).mpr hids
  have hinj : ∀ s ∈ offlineService.sortByCreated st.loc.sync_queue,
      ∀ e ∈ st.loc.sync_queue, e.id = s.id → e = s := by
    intro s hs e he hid
    exact List.inj_on_of_nodup_map hids he (hperm.mem_iff.mp hs) hid
  show (sync.drainGo userId now ok
      (offlineService.getSyncQueue st.loc) st).1.loc.sync_queue = _
  rw [drainGo_queue, offlineService.getSyncQueue,
    foldl_stepQ_characterization ok _ hsortids _ hinj]
  refine List.filterMap_congr fun e he => ?_
  have hmem : e.id ∈
      (offlineService.sortByCreated st.loc.sync_queue).map (·.id) :=
    List.mem_map.mpr ⟨e, hperm.mem_iff.mpr he, rfl⟩
  rw [if_pos hmem]

/-- A drain leaves the queue well-formed. -/
theorem drain_preserves_wf (userId : String) (now : Nat)
    (ok : SyncQueueEntry → Bool) (st : AppState)
    (hwf : QueueWF st.loc.sync_queue) :
    QueueWF (sync.syncWithServer userId now ok st).1.loc.sync_queue := by
  rw [drain_queue_characterization userId now ok st hwf]
  unfold QueueWF at *
  rw [List.pairwise_filterMap]
  refine hwf.imp fun h x hx y hy => ?_
  rw [(bump_eq_some (Option.mem_def.mp hx)).1,
    (bump_eq_some (Option.mem_def.mp hy)).1]
  exact h

theorem retries_ge_filterMap (ok : SyncQueueEntry → Bool)
    {q : List SyncQueueEntry} {k : Nat} (h : ∀ e ∈ q, k ≤ e.retries) :
    ∀ f ∈ q.filterMap (sync.bump ok), k + 1 ≤ f.retries := by
  intro f hf
  rcases List.mem_filterMap.mp hf with ⟨e, he, hb⟩
  have h1 := (bump_eq_some hb).2.1
  have h2 := h e he
  omega

theorem filterMap_bump_of_capped (ok : SyncQueueEntry → Bool)
    {q : List SyncQueueEntry} (h : ∀ e ∈ q, 3 ≤ e.retries) :
    q.filterMap (sync.bump ok) = [] := by
  rw [List.eq_nil_iff_forall_not_mem]
  intro f hf
  rcases List.mem_filterMap.mp hf with ⟨e, he, hb⟩
  have h1 := (bump_eq_some hb).2.2.1
  have h2 := h e he
  omega

/-! ## Per-entry effect invariants of the drain loop -/

theorem stepQ_mem_ids {ok : SyncQueueEntry → Bool} {s f : SyncQueueEntry}
    {q : List SyncQueueEntry} (hf : f ∈ sync.stepQ ok s q) :
    ∃ e ∈ q, f.id = e.id := by
  unfold sync.stepQ at hf
  by_cases hok : sync.entryOk ok s
  · rw [if_pos hok] at hf
    exact ⟨f, (List.mem_filter.mp hf).1, rfl⟩
  · rw [if_neg hok] at hf
    by_cases hr : 3 ≤ s.retries
    · rw [if_pos hr] at hf
      rcases List.mem_map.mp (List.mem_filter.mp hf).1 with ⟨e, he, hfe⟩
      refine ⟨e, he, ?_⟩
      rw [← hfe]
      by_cases h : (e.id == s.id) = true <;> simp [h]
    · rw [if_neg hr] at hf
      rcases List.mem_map.mp hf with ⟨e, he, hfe⟩
      refine ⟨e, he, ?_⟩
      rw [← hfe]
      by_cases h : (e.id == s.id) = true <;> simp [h]

theorem drainGo_preserves_no_id (userId : String) (now : Nat)
    (ok : SyncQueueEntry → Bool) (i : Nat) :
    ∀ (l : List SyncQueueEntry) (st : AppState),
    (∀ f ∈ st.loc.sync_queue, f.id ≠ i) →
    ∀ f ∈ (sync.drainGo userId now ok l st).1.loc.sync_queue,
      f.id ≠ i := by
  intro l
  induction l with
  | nil => intro st h; exact h
  | cons s rest ih =>
    intro st h
    refine ih (sync.syncStep userId now ok s st) ?_
    intro g hg
    rw [syncStep_queue] at hg
    rcases stepQ_mem_ids hg with ⟨e, he, hge⟩
    rw [hge]
    exact h e he

/-- The note rows after one drain iteration: either untouched or exactly
`markSynced` on the processed entry's record id. -/
theorem syncStep_notes (userId : String) (now : Nat)
    (ok : SyncQueueEntry → Bool) (s : SyncQueueEntry) (st : AppState) :
    (sync.syncStep userId now ok s st).loc.notes = st.loc.notes
    ∨ (sync.syncStep userId now ok s st).loc.notes
      = (offlineService.notes.markSynced s.record_id st.loc).notes := by
  unfold sync.syncStep
  by_cases hok : sync.entryOk ok s
  · rw [if_pos hok]
    rcases s with ⟨i, tn, rid, op, d, ca, rt⟩
    cases tn <;> cases op <;>
      first
        | exact Or.inl rfl
        | exact Or.inr rfl
        | (unfold sync.applySuccess
           dsimp only
           split <;> exact Or.inl rfl)
  · rw [if_neg hok]
    dsimp only
    split <;> exact Or.inl rfl

/-- The label rows after one drain iteration: either untouched or exactly
`markSynced` on the processed entry's record id. -/
theorem syncStep_labels (userId : String) (now : Nat)
    (ok : SyncQueueEntry → Bool) (s : SyncQueueEntry) (st : AppState) :
    (sync.syncStep userId now ok s st).loc.labels = st.loc.labels
    ∨ (sync.syncStep userId now ok s st).loc.labels
      = (offlineService.labels.markSynced s.record_id st.loc).labels := by
  unfold sync.syncStep
  by_cases hok : sync.entryOk ok s
  · rw [if_pos hok]
    rcases s with ⟨i, tn, rid, op, d, ca, rt⟩
    cases tn <;> cases op <;>
      first
        | exact Or.inl rfl
        | exact Or.inr rfl
        | (unfold sync.applySuccess
           dsimp only
           split <;> exact Or.inl rfl)
  · rw [if_neg hok]
    dsimp only
    split <;> exact Or.inl rfl

theorem markSynced_preserves_note_synced {loc : LocalState} {r i : Nat}
    (h : ∀ n ∈ loc.notes, n.id = r → n.sync_status = some .synced) :
    ∀ n ∈ (offlineService.notes.markSynced i loc).notes,
      n.id = r → n.sync_status = some .synced := by
  intro n hn hr
  rcases List.mem_map.mp hn with ⟨m, hm, hmn⟩
  by_cases hb : (m.id == i) = true
  · rw [if_pos hb] at hmn
    rw [← hmn]
  · rw [if_neg hb] at hmn
    subst hmn
    exact h m hm hr

theorem markSynced_preserves_label_synced {loc : LocalState} {r i : Nat}
    (h : ∀ x ∈ loc.labels, x.id = r → x.sync_status = some .synced) :
    ∀ x ∈ (offlineService.labels.markSynced i loc).labels,
      x.id = r → x.sync_status = some .synced := by
  intro x hx hr
  rcases List.mem_map.mp hx with ⟨m, hm, hmx⟩
  by_cases hb : (m.id == i) = true
  · rw [if_pos hb] at hmx
    rw [← hmx]
  · rw [if_neg hb] at hmx
    subst hmx
    exact h m hm hr

theorem drainGo_preserves_note_synced (userId : String) (now : Nat)
    (ok : SyncQueueEntry → Bool) (r : Nat) :
    ∀ (l : List SyncQueueEntry) (st : AppState),
    (∀ n ∈ st.loc.notes, n.id = r → n.sync_status = some .synced) →
    ∀ n ∈ (sync.drainGo userId now ok l st).1.loc.notes,
      n.id = r → n.sync_status = some .synced := by
  intro l
  induction l with
  | nil => intro st h; exact h
  | cons s rest ih =>
    intro st h
    refine ih (sync.syncStep userId now ok s st) ?_
    rcases syncStep_notes userId now ok s st with heq | heq
    · rw [heq]; exact h
    · rw [heq]; exact markSynced_preserves_note_synced h

theorem drainGo_preserves_label_synced (userId : String) (now : Nat)
    (ok : SyncQueueEntry → Bool) (r : Nat) :
    ∀ (l : List SyncQueueEntry) (st : AppState),
    (∀ x ∈ st.loc.labels, x.id = r → x.sync_status = some .synced) →
    ∀ x ∈ (sync.drainGo userId now ok l st).1.loc.labels,
      x.id = r → x.sync_status = some .synced := by
  intro l
  induction l with
  | nil => intro st h; exact h
  | cons s rest ih =>
    intro st h
    refine ih (sync.syncStep userId now ok s st) ?_
    rcases syncStep_labels userId now ok s st with heq | heq
    · rw [heq]; exact h
    · rw [heq]; exact markSynced_preserves_label_synced h

theorem syncStep_removes_id (userId : String) (now : Nat)
    (ok : SyncQueueEntry → Bool) (s : SyncQueueEntry) (st : AppState)
    (hok : sync.entryOk ok s = true) :
    ∀ f ∈ (sync.syncStep userId now ok s st).loc.sync_queue,
      f.id ≠ s.id := by
  intro f hf hfs
  rw [syncStep_queue] at hf
  unfold sync.stepQ at hf
  rw [if_pos hok] at hf
  have hb := (List.mem_filter.mp hf).2
  rw [hfs] at hb
  simp at hb

theorem syncStep_establishes_note_synced (userId : String) (now : Nat)
    (ok : SyncQueueEntry → Bool) (s : SyncQueueEntry) (st : AppState)
    (hok : sync.entryOk ok s = true) (htn : s.table_name = .notes)
    (hop : s.operation = .create ∨ s.operation = .update) :
    ∀ n ∈ (sync.syncStep userId now ok s st).loc.notes,
      n.id = s.record_id → n.sync_status = some .synced := by
  have key : ∀ n ∈ (offlineService.notes.markSynced s.record_id
      st.loc).notes, n.id = s.record_id → n.sync_status = some .synced := by
    intro n hn hr
    rcases List.mem_map.mp hn with ⟨m, hm, hmn⟩
    by_cases hb : (m.id == s.record_id) = true
    · rw [if_pos hb] at hmn
      rw [← hmn]
    · rw [if_neg hb] at hmn
      subst hmn
      exact absurd (beq_iff_eq.mpr hr) hb
  rcases s with ⟨i, tn, rid, op, d, ca, rt⟩
  simp only at htn hop
  subst htn
  unfold sync.syncStep
  rw [if_pos hok]
  rcases hop with h | h <;> subst h <;> exact fun n hn hr => key n hn hr

theorem syncStep_establishes_label_synced (userId : String) (now : Nat)
    (ok : SyncQueueEntry → Bool) (s : SyncQueueEntry) (st : AppState)
    (hok : sync.entryOk ok s = true) (htn : s.table_name = .labels)
    (hop : s.operation = .create ∨ s.operation = .update) :
    ∀ x ∈ (sync.syncStep userId now ok s st).loc.labels,
      x.id = s.record_id → x.sync_status = some .synced := by
  have key : ∀ x ∈ (offlineService.labels.markSynced s.record_id
      st.loc).labels, x.id = s.record_id → x.sync_status = some .synced := by
    intro x hx hr
    rcases List.mem_map.mp hx with ⟨m, hm, hmx⟩
    by_cases hb : (m.id == s.record_id) = true
    · rw [if_pos hb] at hmx
      rw [← hmx]
    · rw [if_neg hb] at hmx
      subst hmx
      exact absurd (beq_iff_eq.mpr hr) hb
  rcases s with ⟨i, tn, rid, op, d, ca, rt⟩
  simp only at htn hop
  subst htn
  unfold sync.syncStep
  rw [if_pos hok]
  rcases hop with h | h <;> subst h <;> exact fun x hx hr => key x hx hr

/-- Per-entry postcondition of the drain loop for a successfully replayed
snapshot entry: its id is gone from the queue, and for a notes or labels
`create`/`update` entry the targeted local rows end marked `synced`. -/
theorem drainGo_entry_success (userId : String) (now : Nat)
    (ok : SyncQueueEntry → Bool) :
    ∀ (l : List SyncQueueEntry) (st : AppState) (e : SyncQueueEntry),
    e ∈ l → sync.entryOk ok e = true →
    (∀ f ∈ (sync.drainGo userId now ok l st).1.loc.sync_queue,
      f.id ≠ e.id)
    ∧ (e.table_name = .notes →
        e.operation = .create ∨ e.operation = .update →
        ∀ n ∈ (sync.drainGo userId now ok l st).1.loc.notes,
          n.id = e.record_id → n.sync_status = some .synced)
    ∧ (e.table_name = .labels →
        e.operation = .create ∨ e.operation = .update →
        ∀ x ∈ (sync.drainGo userId now ok l st).1.loc.labels,
          x.id = e.record_id → x.sync_status = some .synced) := by
  intro l
  induction l with
  | nil =>
    intro st e he
    exact absurd he (List.not_mem_nil e)
  | cons s rest ih =>
    intro st e he hok
    rcases List.mem_cons.mp he with rfl | he2
    · refine ⟨?_, ?_, ?_⟩
      · exact drainGo_preserves_no_id userId now ok e.id rest _
          (syncStep_removes_id userId now ok e st hok)
      · intro htn hop
        exact drainGo_preserves_note_synced userId now ok e.record_id
          rest _
          (syncStep_establishes_note_synced userId now ok e st hok htn
            hop)
      · intro htn hop
        exact drainGo_preserves_label_synced userId now ok e.record_id
          rest _
          (syncStep_establishes_label_synced userId now ok e st hok htn
            hop)
    · exact ih (sync.syncStep userId now ok s st) e he2 hok

/-! ## Claim C1: successful replay marks records synced; drains
terminate -/

/-- C1 counterexample: on a concrete state holding one locally created
note-label association and its queue entry, a drain in which every remote
call succeeds removes the entry, yet the corresponding local record is
not marked `synced` (its `sync_status` is still unset): the claimed
sync-status flip does not happen for `note_labels` entries. -/
theorem C1_counterexample_assoc_record_not_synced :
    (sync.syncWithServer "u" 10 (fun _ => true)
      assocAppState).1.loc.sync_queue = []
    ∧ (sync.syncWithServer "u" 10 (fun _ => true)
        assocAppState).1.loc.note_labels = [assoc12]
    ∧ assoc12.sync_status ≠ some .synced := by
  decide

/-- C1 amended: for every snapshot entry whose replay succeeds, the drain
removes the entry from the queue, and — for `notes` and `labels` entries
with operation `create` or `update` (the cases where the orchestrator
performs a `markSynced`; `delete` operations and `note_labels` entries
get no status flip) — every local record with the entry's record id ends
with `sync_status = synced`; moreover, starting from a well-formed
queue, four successive drains always leave the queue empty, so no entry
stays in limbo beyond the retry cap. -/
theorem C1_drain_success_and_completion (st : AppState)
    (userId : String) (now : Nat) (ok : SyncQueueEntry → Bool) :
    (∀ e ∈ offlineService.getSyncQueue st.loc,
      sync.entryOk ok e = true →
      (∀ f ∈ (sync.syncWithServer userId now ok st).1.loc.sync_queue,
        f.id ≠ e.id)
      ∧ (e.table_name = .notes →
          e.operation = .create ∨ e.operation = .update →
          ∀ n ∈ (sync.syncWithServer userId now ok st).1.loc.notes,
            n.id = e.record_id → n.sync_status = some .synced)
      ∧ (e.table_name = .labels →
          e.operation = .create ∨ e.operation = .update →
          ∀ x ∈ (sync.syncWithServer userId now ok st).1.loc.labels,
            x.id = e.record_id → x.sync_status = some .synced))
    ∧ (QueueWF st.loc.sync_queue →
      ∀ (n1 n2 n3 n4 : Nat) (ok1 ok2 ok3 ok4 : SyncQueueEntry → Bool),
      ((sync.syncWithServer userId n4 ok4
        ((sync.syncWithServer userId n3 ok3
          ((sync.syncWithServer userId n2 ok2
            ((sync.syncWithServer userId n1 ok1
              st).1)).1)).1)).1).loc.sync_queue = []) := by
  constructor
  · intro e he hok
    exact drainGo_entry_success userId now ok
      (offlineService.getSyncQueue st.loc) st e he hok
  · intro hwf n1 n2 n3 n4 ok1 ok2 ok3 ok4
    have h0 : ∀ e ∈ st.loc.sync_queue, 0 ≤ e.retries :=
      fun _ _ => Nat.zero_le _
    have hq1 := drain_queue_characterization userId n1 ok1 st hwf
    have hwf1 := drain_preserves_wf userId n1 ok1 st hwf
    have hr1 : ∀ e ∈ (sync.syncWithServer userId n1 ok1
        st).1.loc.sync_queue, 1 ≤ e.retries := by
      rw [hq1]
      exact retries_ge_filterMap ok1 h0
    have hq2 := drain_queue_characterization userId n2 ok2 _ hwf1
    have hwf2 := drain_preserves_wf userId n2 ok2 _ hwf1
    have hr2 : ∀ e ∈ (sync.syncWithServer userId n2 ok2
        ((sync.syncWithServer userId n1 ok1 st).1)).1.loc.sync_queue,
        2 ≤ e.retries := by
      rw [hq2]
      exact retries_ge_filterMap ok2 hr1
    have hq3 := drain_queue_characterization userId n3 ok3 _ hwf2
    have hwf3 := drain_preserves_wf userId n3 ok3 _ hwf2
    have hr3 : ∀ e ∈ (sync.syncWithServer userId n3 ok3
        ((sync.syncWithServer userId n2 ok2
          ((sync.syncWithServer userId n1 ok1
            st).1)).1)).1.loc.sync_queue,
        3 ≤ e.retries := by
      rw [hq3]
      exact retries_ge_filterMap ok3 hr2
    rw [drain_queue_characterization userId n4 ok4 _ hwf3]
    exact filterMap_bump_of_capped ok4 hr3

/-- C1 witness: the amended theorem applied to the concrete two-entry
queue with an always-successful remote, instantiated at the `update`
entry. -/
theorem C1_drain_success_witness :
    (∀ f ∈ (sync.syncWithServer "u" 5 (fun _ => true)
        twoEntryState).1.loc.sync_queue, f.id ≠ 2)
    ∧ (∀ n ∈ (sync.syncWithServer "u" 5 (fun _ => true)
        twoEntryState).1.loc.notes,
        n.id = 1 → n.sync_status = some .synced)
    ∧ ((sync.syncWithServer "u" 9 (fun _ => true)
        ((sync.syncWithServer "u" 8 (fun _ => true)
          ((sync.syncWithServer "u" 7 (fun _ => true)
            ((sync.syncWithServer "u" 6 (fun _ => true)
              twoEntryState).1)).1)).1)).1).loc.sync_queue = [] := by
  have h := C1_drain_success_and_completion twoEntryState "u" 5
    (fun _ => true)
  have h1 := h.1
    { id := 2, table_name := .notes, record_id := 1,
      operation := .update, data := .pPatch {}, created_at := 1,
      retries := 0 }
    (by decide) (by decide)
  exact ⟨h1.1, h1.2.1 rfl (Or.inr rfl),
    h.2 (by unfold QueueWF; decide) 6 7 8 9 _ _ _ _⟩

/-! ## Claim C2: the retry cap check -/

/-- C2: evaluation of the orchestrator on a fresh `update` entry under a
remote that always fails.  After three failed drains the entry is still
in the queue with `retries = 3` (the source compares the snapshot's
`item.retries`, read before the increment, against the cap), a fourth
drain still attempts it, and only then is it removed — contradicting the
claim that the entry is removed as soon as the incremented retries
reaches 3 and that no fourth attempt occurs. -/
theorem C2_entry_survives_third_failure_and_fourth_attempt_occurs :
    ((sync.syncWithServer "u" 3 (fun _ => false)
      ((sync.syncWithServer "u" 2 (fun _ => false)
        ((sync.syncWithServer "u" 1 (fun _ => false)
          updAppState).1)).1)).1.loc.sync_queue.map
      fun e => (e.id, e.retries)) = [(1, 3)]
    ∧ (sync.syncWithServer "u" 4 (fun _ => false)
        ((sync.syncWithServer "u" 3 (fun _ => false)
          ((sync.syncWithServer "u" 2 (fun _ => false)
            ((sync.syncWithServer "u" 1 (fun _ => false)
              updAppState).1)).1)).1)).2 = [1]
    ∧ ((sync.syncWithServer "u" 4 (fun _ => false)
        ((sync.syncWithServer "u" 3 (fun _ => false)
          ((sync.syncWithServer "u" 2 (fun _ => false)
            ((sync.syncWithServer "u" 1 (fun _ => false)
              updAppState).1)).1)).1)).1).loc.sync_queue = [] := by
  decide

/-! ## Claim C3: facade routing -/

/-- C3 counterexample: an online `createNote` on the empty state succeeds
against the remote store but mirrors nothing into the Local Store (its
tables and sync queue stay empty), and an offline `createNote` rejects
and enqueues no sync-queue entry — refuting both the mirrored-as-synced
part and the offline-enqueue part of the claim. -/
theorem C3_counterexample_no_mirror_no_enqueue :
    ((NotesProvider.createNote true true "u"
        { title := some "Groceries", content := some "milk" } 5
        ({} : AppState)).2.loc = ({} : LocalState)
    ∧ (NotesProvider.createNote true true "u"
        { title := some "Groceries", content := some "milk" } 5
        ({} : AppState)).2.remote.notes.length = 1)
    ∧ ((NotesProvider.createNote false true "u"
        { title := some "Groceries", content := some "milk" } 5
        ({} : AppState)).1 = none
    ∧ (NotesProvider.createNote false true "u"
        { title := some "Groceries", content := some "milk" } 5
        ({} : AppState)).2.loc.sync_queue = []) := by
  decide

/-- C3 amended: every mutating facade operation branches on connectivity.
Online, only the Remote Store is called: the Local Store (all tables and
the sync queue) is left completely untouched — nothing is mirrored into
it — and a remote failure propagates with no state change.  Offline,
only the Local Store table write happens (creates stored marked
`pending`); the subsequent enqueue call throws, so no sync-queue entry
is ever created, the Remote Store is untouched, and the operation
rejects (offline label detach rejects before any write at its invalid
compound-index lookup). -/
theorem C3_facade_routes_by_connectivity (st : AppState) (rok : Bool)
    (userId : String) (noteData : NoteInput) (updates : NotePatch)
    (noteId labelId : Nat) (permanent : Bool) (now : Nat) :
    ((NotesProvider.createNote true rok userId noteData now st).2.loc
        = st.loc
    ∧ (NotesProvider.updateNote true rok noteId userId updates now
        st).2.loc = st.loc
    ∧ (NotesProvider.deleteNote true rok noteId userId permanent now
        st).2.loc = st.loc
    ∧ (NotesProvider.restoreNote true rok noteId userId now st).2.loc
        = st.loc
    ∧ (NotesProvider.addLabelToNote true rok noteId labelId now
        st).2.loc = st.loc
    ∧ (NotesProvider.removeLabelFromNote true rok noteId labelId now
        st).2.loc = st.loc)
    ∧ (NotesProvider.createNote true false userId noteData now st
        = (none, st)
    ∧ NotesProvider.updateNote true false noteId userId updates now st
        = (false, st)
    ∧ NotesProvider.deleteNote true false noteId userId permanent now st
        = (false, st)
    ∧ NotesProvider.restoreNote true false noteId userId now st
        = (false, st)
    ∧ NotesProvider.addLabelToNote true false noteId labelId now st
        = (false, st)
    ∧ NotesProvider.removeLabelFromNote true false noteId labelId now st
        = (false, st))
    ∧ ((NotesProvider.createNote false rok userId noteData now st).1
        = none
    ∧ (NotesProvider.createNote false rok userId noteData now
        st).2.remote = st.remote
    ∧ (NotesProvider.createNote false rok userId noteData now
        st).2.loc.sync_queue = st.loc.sync_queue
    ∧ (NotesProvider.createNote false rok userId noteData now
        st).2.loc.notes
      = st.loc.notes ++
        [{ id := st.loc.notesNext, user_id := userId,
           title := noteData.title.getD "",
           content := noteData.content.getD "",
           type := noteData.type.getD "text",
           color := noteData.color.getD "default",
           pinned := noteData.pinned.getD false, archived := false,
           deleted := false, created_at := now, updated_at := now,
           metadata := noteData.metadata.getD "",
           sync_status := some .pending, last_modified := some now }]
    ∧ (NotesProvider.updateNote false rok noteId userId updates now
        st).1 = false
    ∧ (NotesProvider.updateNote false rok noteId userId updates now
        st).2.remote = st.remote
    ∧ (NotesProvider.updateNote false rok noteId userId updates now
        st).2.loc.sync_queue = st.loc.sync_queue
    ∧ (NotesProvider.updateNote false rok noteId userId updates now
        st).2.loc.notes
      = (st.loc.notes.map fun n =>
          if n.id == noteId && n.user_id == userId then
            applyPatch n { updates with updated_at := some now }
          else n)
    ∧ (NotesProvider.deleteNote false rok noteId userId permanent now
        st).1 = false
    ∧ (NotesProvider.deleteNote false rok noteId userId permanent now
        st).2.remote = st.remote
    ∧ (NotesProvider.deleteNote false rok noteId userId permanent now
        st).2.loc.sync_queue = st.loc.sync_queue
    ∧ (NotesProvider.deleteNote false rok noteId userId permanent now
        st).2.loc.notes
      = (if permanent then
          st.loc.notes.filter fun n =>
            !(n.id == noteId && n.user_id == userId)
        else
          st.loc.notes.map fun n =>
            if n.id == noteId && n.user_id == userId then
              applyPatch n (offlineService.notes.softDeletePatch now)
            else n)
    ∧ (NotesProvider.restoreNote false rok noteId userId now st).1
        = false
    ∧ (NotesProvider.restoreNote false rok noteId userId now
        st).2.remote = st.remote
    ∧ (NotesProvider.restoreNote false rok noteId userId now
        st).2.loc.sync_queue = st.loc.sync_queue
    ∧ (NotesProvider.restoreNote false rok noteId userId now
        st).2.loc.notes
      = (st.loc.notes.map fun n =>
          if n.id == noteId && n.user_id == userId then
            applyPatch n (offlineService.notes.restorePatch now)
          else n)
    ∧ (NotesProvider.addLabelToNote false rok noteId labelId now st).1
        = false
    ∧ (NotesProvider.addLabelToNote false rok noteId labelId now
        st).2.remote = st.remote
    ∧ (NotesProvider.addLabelToNote false rok noteId labelId now
        st).2.loc.sync_queue = st.loc.sync_queue
    ∧ (NotesProvider.addLabelToNote false rok noteId labelId now
        st).2.loc.note_labels
      = st.loc.note_labels ++
        [{ id := st.loc.nlNext, note_id := noteId,
           label_id := labelId }]
    ∧ NotesProvider.removeLabelFromNote false rok noteId labelId now st
        = (false, st)) := by
  refine ⟨⟨?_, ?_, ?_, ?_, ?_, ?_⟩, ⟨rfl, rfl, ?_, rfl, rfl, rfl⟩,
    rfl, rfl, rfl, ?_, rfl, rfl, rfl, ?_, rfl, rfl, ?_, ?_, rfl, rfl,
    rfl, ?_, rfl, rfl, rfl, ?_, ?_⟩
  · cases rok <;> rfl
  · cases rok <;> rfl
  · cases rok <;> cases permanent <;> rfl
  · cases rok <;> rfl
  · cases rok <;> rfl
  · cases rok <;> rfl
  · cases permanent <;> rfl
  · simp [NotesProvider.createNote, offlineService.notes.create]
  · simp [NotesProvider.updateNote, offlineService.notes.update]
  · cases permanent <;>
      simp [NotesProvider.deleteNote, offlineService.notes.delete]
  · cases permanent <;>
      simp [NotesProvider.deleteNote, offlineService.notes.delete]
  · simp [NotesProvider.restoreNote, offlineService.notes.restore]
  · simp [NotesProvider.addLabelToNote, offlineService.labels.addToNote]
  · rfl

/-- C5 witness: the amended theorem applied to the concrete state,
instantiated at the surviving association of a label deletion with an
unrelated label id. -/
theorem C5_label_cascades_witness : assoc12.label_id ≠ 9 :=
  (C5_label_cascades_note_does_not noteWithAssocState remoteWithAssoc
    1 9 "u" true 10).2.1 assoc12 (by decide)

end NotesApp
